import Mathlib

/-!
Shallow embedding of the FundMind incremental synchronization engine
(`src/fund_loader.py`, `src/data_fetcher.py`, `src/data/cache.py`).

Timestamps are modelled as a calendar day (`day`, days since an epoch — the
role of Python's `.date()`) plus seconds within the day; `Date` columns are a
bare day number. Floating-point cell values are modelled as integers plus an
explicit NaN (only equality and defaulting matter to the code under study).
Each SQLAlchemy table is a `List` of rows; `session.merge` is overwrite-by-
primary-key, except for `stock_daily`, whose only primary key column is the
autoincrement `id` (the `Config.unique_together` class in the source is a
Django idiom with no effect in SQLAlchemy), so merging a freshly constructed
row always inserts.
-/

set_option autoImplicit false

/-- Wall-clock timestamp: calendar day and time of day (seconds). -/
structure DateTime where
  day : Nat
  tod : Nat
  deriving DecidableEq, Repr

/-- Strict order on timestamps (day first, then time of day). -/
def DateTime.lt (a b : DateTime) : Bool :=
  decide (a.day < b.day) || (decide (a.day = b.day) && decide (a.tod < b.tod))

/-- Non-strict order on timestamps. -/
def DateTime.le (a b : DateTime) : Bool :=
  decide (a.day < b.day) || (decide (a.day = b.day) && decide (a.tod ≤ b.tod))

/-- `timestamp - timedelta(days = k)` (truncated at the epoch). -/
def DateTime.minusDays (t : DateTime) (k : Nat) : DateTime :=
  { day := t.day - k, tod := t.tod }

/-- A stored float column value: a finite number (modelled as an integer) or NaN. -/
inductive FVal where
  | num (n : Int)
  | nan
  deriving DecidableEq, Repr

/-- A raw provider cell as the fetch layer hands it over: numeric text that
`float()` accepts, text that `float()` rejects (raising ValueError), a pandas
NaN, or an absent column/key. -/
inductive RawVal where
  | num (n : Int)
  | nonNumeric
  | nan
  | missing
  deriving DecidableEq, Repr

/-- Models `float(row[key])` on a mandatory field: a missing key raises
KeyError and non-numeric text raises ValueError (`none` = the exception
propagates to the enclosing try); `float` of a NaN succeeds and is NaN. -/
def strictFloat : RawVal → Option FVal
  | .num n => some (.num n)
  | .nan => some .nan
  | .nonNumeric => none
  | .missing => none

/-- Models `int(float(v)) if pd.notna(v) else 0` with `v = row.get(key, 0)`
(and the same shape for `float(v) if pd.notna(v) else 0.0` with
`v = row.get(key)`): an absent column falls back to the default hence 0, NaN
fails `notna` hence 0, non-numeric text raises. -/
def optionalFloat : RawVal → Option Int
  | .num n => some n
  | .nan => some 0
  | .missing => some 0
  | .nonNumeric => none

/-- Models `try: float(info_dict.get(key, "0").replace(",", "")) except: 0.0`
from `update_valuation_info`: a missing key defaults to "0", and any
conversion failure is swallowed into 0.0. -/
def tryFloatDefault0 : RawVal → FVal
  | .num n => .num n
  | _ => .num 0

/-- Models `float(info.get(key, 0))` from the valuation writes in
`update_stock_history` / `update_daily_data`: a missing key defaults to 0,
non-numeric text raises (aborting the enclosing try). -/
def strictFloatDefault0 : RawVal → Option FVal
  | .num n => some (.num n)
  | .nan => some .nan
  | .nonNumeric => none
  | .missing => some (.num 0)

/-- Table `stock_basic` (primary key: symbol). -/
structure StockBasic where
  symbol : String
  name : String
  industry : String
  area : String
  market : String
  list_date : String
  last_updated : DateTime
  deriving DecidableEq, Repr

/-- Table `stock_daily`. Its only primary key column is the autoincrement
`id`; `symbol`/`trade_date` are plain columns (`open` is a Lean keyword, so
that column is `open_p` here). -/
structure StockDaily where
  id : Nat
  symbol : String
  trade_date : DateTime
  open_p : FVal
  high : FVal
  low : FVal
  close : FVal
  volume : FVal
  amount : FVal
  deriving DecidableEq, Repr

/-- Table `stock_financial_metrics` (primary key: symbol, report_date). -/
structure StockFinancialMetrics where
  symbol : String
  report_date : Nat
  roe : FVal
  net_profit_ratio : FVal
  gross_profit_rate : FVal
  net_profits : FVal
  eps : FVal
  main_business_income : FVal
  update_date : DateTime
  deriving DecidableEq, Repr

/-- Table `stock_insider_trades` (primary key: symbol, holder_name, change_date). -/
structure StockInsiderTrades where
  symbol : String
  holder_name : String
  change_date : Nat
  change_type : String
  shares_changed : Int
  price : Int
  update_date : DateTime
  deriving DecidableEq, Repr

/-- Table `stock_news` (primary key: symbol, title, date). -/
structure StockNews where
  symbol : String
  title : String
  date : DateTime
  source : String
  url : String
  update_date : DateTime
  deriving DecidableEq, Repr

/-- Table `stock_valuation_info` (primary key: symbol). -/
structure StockValuationInfo where
  symbol : String
  market_cap : FVal
  total_shares : FVal
  outstanding_shares : FVal
  pe_ratio : FVal
  pb_ratio : FVal
  update_date : DateTime
  deriving DecidableEq, Repr

/-- Primary key of `stock_financial_metrics`. -/
def finPk (m : StockFinancialMetrics) : String × Nat := (m.symbol, m.report_date)

/-- Primary key of `stock_insider_trades`. -/
def insPk (t : StockInsiderTrades) : String × String × Nat :=
  (t.symbol, t.holder_name, t.change_date)

/-- Primary key of `stock_news`. -/
def newsPk (n : StockNews) : String × String × DateTime := (n.symbol, n.title, n.date)

/-- Primary key of `stock_valuation_info`. -/
def valPk (v : StockValuationInfo) : String := v.symbol

/-- SQLAlchemy `session.merge` on a table whose primary key function is `pk`
and whose new row carries a full key: overwrite the row(s) sharing the key in
place, or insert at the end. -/
def mergeByKey {α κ : Type} [DecidableEq κ] (pk : α → κ) (table : List α) (r : α) : List α :=
  if table.any (fun x => decide (pk x = pk r)) then
    table.map (fun x => if pk x = pk r then r else x)
  else table ++ [r]

/-- A `StockDaily` as the loader constructs it — without an `id`. -/
structure DailyRowData where
  symbol : String
  trade_date : DateTime
  open_p : FVal
  high : FVal
  low : FVal
  close : FVal
  volume : FVal
  amount : FVal
  deriving DecidableEq, Repr

/-- The `stock_daily` table plus its autoincrement counter. -/
structure DailyTable where
  rows : List StockDaily
  next_id : Nat
  deriving DecidableEq, Repr

/-- SQLAlchemy `session.merge` on a `StockDaily` built without `id`: the
primary key is the autoincrement `id`, so the merge always INSERTs a fresh
row (never an overwrite, whatever `symbol`/`trade_date` are). -/
def DailyTable.insert (t : DailyTable) (d : DailyRowData) : DailyTable :=
  { rows := t.rows ++
      [{ id := t.next_id, symbol := d.symbol, trade_date := d.trade_date,
         open_p := d.open_p, high := d.high, low := d.low, close := d.close,
         volume := d.volume, amount := d.amount }],
    next_id := t.next_id + 1 }

/-- One row of `ak.stock_financial_analysis_indicator`; `report_date` is the
already-parsed 报告期 column, the other fields are the raw numeric columns the
loader converts with `float(row[...])`. -/
structure FinRawRow where
  report_date : Nat
  roe : RawVal
  net_profit_ratio : RawVal
  gross_profit_rate : RawVal
  net_profits : RawVal
  eps : RawVal
  main_business_income : RawVal
  deriving DecidableEq, Repr

/-- One row of `ak.stock_share_hold_change_sse/szse`: the two possible holder
name columns (董监高姓名 / 股份变动人姓名), the parsed 变动日期, and the raw
变动原因 / 变动股份数量 / 成交均价 cells. -/
structure InsRawRow where
  holder_a : Option String
  holder_b : Option String
  change_date : Nat
  change_type : Option String
  shares : RawVal
  price : RawVal
  deriving DecidableEq, Repr

/-- One row of `ak.stock_news_em`: `date_str` is the parsed 时间/日期 value
(`none` when both columns are absent or empty), `title`/`url` the 标题/链接
cells with the code's "" defaults already applied. -/
structure NewsRawRow where
  date_str : Option DateTime
  title : String
  url : String
  deriving DecidableEq, Repr

/-- The `ak.stock_individual_info_em` frame after `set_index("item")["value"]`
(or the `info_dict` built from it), restricted to the five keys the loader
reads: 总市值, 总股本, 流通股本, 市盈率(动), 市净率. An empty frame is all
fields `.missing`. -/
structure ValInfoRaw where
  market_cap : RawVal
  total_shares : RawVal
  outstanding_shares : RawVal
  pe_ratio : RawVal
  pb_ratio : RawVal
  deriving DecidableEq, Repr

/-- One row of `ak.stock_zh_a_hist`: the parsed 日期 plus the raw OHLCV cells. -/
structure PriceRawRow where
  trade_date : DateTime
  open_p : RawVal
  high : RawVal
  low : RawVal
  close : RawVal
  volume : RawVal
  amount : RawVal
  deriving DecidableEq, Repr

/-- Sequential all-or-nothing row conversion: the Python loops build and merge
row by row inside one try, and on the first conversion error the except clause
rolls the uncommitted session back, so the net effect of a batch is either
every row converted (`some`) or no change at all (`none`). -/
def buildAll {α β : Type} (f : α → Option β) : List α → Option (List β)
  | [] => some []
  | r :: rs =>
    match f r, buildAll f rs with
    | some m, some ms => some (m :: ms)
    | _, _ => none

/-- The `StockFinancialMetrics(...)` constructor call with its `float(row[...])`
conversions, any of which can raise. -/
def buildFinMetric (symbol : String) (now : DateTime) (r : FinRawRow) :
    Option StockFinancialMetrics :=
  (strictFloat r.roe).bind fun a =>
  (strictFloat r.net_profit_ratio).bind fun b =>
  (strictFloat r.gross_profit_rate).bind fun c =>
  (strictFloat r.net_profits).bind fun d =>
  (strictFloat r.eps).bind fun e =>
  (strictFloat r.main_business_income).bind fun f =>
  some { symbol := symbol, report_date := r.report_date, roe := a,
         net_profit_ratio := b, gross_profit_rate := c, net_profits := d,
         eps := e, main_business_income := f, update_date := now }

/-- `row.get('董监高姓名') or row.get('股份变动人姓名', '未知')`: the first
column when present and non-empty, else the second with default 未知. -/
def holderName (a b : Option String) : String :=
  match a with
  | some s => if s = "" then b.getD "未知" else s
  | none => b.getD "未知"

/-- The `StockInsiderTrades(...)` constructor call with its share/price
conversions, which can raise on non-numeric text. -/
def buildInsTrade (symbol : String) (now : DateTime) (r : InsRawRow) :
    Option StockInsiderTrades :=
  (optionalFloat r.shares).bind fun sh =>
  (optionalFloat r.price).bind fun pr =>
  some { symbol := symbol, holder_name := holderName r.holder_a r.holder_b,
         change_date := r.change_date, change_type := r.change_type.getD "",
         shares_changed := sh, price := pr, update_date := now }

/-- The `StockDaily(...)` constructor call with its `float(row[...])`
conversions (no `id` is passed). -/
def buildDailyRow (symbol : String) (r : PriceRawRow) : Option DailyRowData :=
  (strictFloat r.open_p).bind fun o =>
  (strictFloat r.high).bind fun h =>
  (strictFloat r.low).bind fun l =>
  (strictFloat r.close).bind fun c =>
  (strictFloat r.volume).bind fun v =>
  (strictFloat r.amount).bind fun a =>
  some { symbol := symbol, trade_date := r.trade_date, open_p := o, high := h,
         low := l, close := c, volume := v, amount := a }

/-- The `StockValuationInfo(...)` constructor as written in
`update_stock_history` step 4 and `update_daily_data` step 5, with
`float(info.get(key, 0))` conversions that can raise. -/
def buildValuationStrict (symbol : String) (now : DateTime) (info : ValInfoRaw) :
    Option StockValuationInfo :=
  (strictFloatDefault0 info.market_cap).bind fun a =>
  (strictFloatDefault0 info.total_shares).bind fun b =>
  (strictFloatDefault0 info.outstanding_shares).bind fun c =>
  (strictFloatDefault0 info.pe_ratio).bind fun d =>
  (strictFloatDefault0 info.pb_ratio).bind fun e =>
  some { symbol := symbol, market_cap := a, total_shares := b,
         outstanding_shares := c, pe_ratio := d, pb_ratio := e,
         update_date := now }

/-- The `StockValuationInfo(...)` constructor as written in
`update_valuation_info`, every field conversion wrapped in its own
try/except defaulting to 0.0 — it never fails. -/
def buildValuationInfoRow (symbol : String) (now : DateTime) (info : ValInfoRaw) :
    StockValuationInfo :=
  { symbol := symbol,
    market_cap := tryFloatDefault0 info.market_cap,
    total_shares := tryFloatDefault0 info.total_shares,
    outstanding_shares := tryFloatDefault0 info.outstanding_shares,
    pe_ratio := tryFloatDefault0 info.pe_ratio,
    pb_ratio := tryFloatDefault0 info.pb_ratio,
    update_date := now }

/-- The greatest element of a list of timestamps, if any (an `order_by(col
desc).first()` over the column values). -/
def maxDT : List DateTime → Option DateTime
  | [] => none
  | d :: ds =>
    match maxDT ds with
    | none => some d
    | some b => some (if DateTime.lt d b then b else d)

/-- The greatest element of a list of day numbers, if any. -/
def maxDay : List Nat → Option Nat
  | [] => none
  | d :: ds =>
    match maxDay ds with
    | none => some d
    | some b => some (max d b)

/-- `query(StockFinancialMetrics).filter(symbol).order_by(report_date desc)
.first().report_date`: the latest stored report date for the symbol. -/
def latestFinReportDate (table : List StockFinancialMetrics) (symbol : String) : Option Nat :=
  maxDay ((table.filter (fun m => m.symbol == symbol)).map (fun m => m.report_date))

/-- `query(StockInsiderTrades).filter(symbol).order_by(change_date desc)
.first().change_date`: the latest stored change date for the symbol. -/
def latestInsChangeDate (table : List StockInsiderTrades) (symbol : String) : Option Nat :=
  maxDay ((table.filter (fun t => t.symbol == symbol)).map (fun t => t.change_date))

/-- `query(StockNews).filter(symbol).filter(date >= thirty_days_ago)
.order_by(date desc).first().date`: the latest stored news date within the
window for the symbol. -/
def latestNewsRecentDate (thirty : DateTime) (table : List StockNews) (symbol : String) :
    Option DateTime :=
  maxDT ((table.filter (fun n => n.symbol == symbol && DateTime.le thirty n.date)).map
    (fun n => n.date))

/-- `query(StockValuationInfo.update_date).filter(symbol)
.order_by(update_date desc).first()`: the latest valuation write time. -/
def latestValUpdate (table : List StockValuationInfo) (symbol : String) : Option DateTime :=
  maxDT ((table.filter (fun v => v.symbol == symbol)).map (fun v => v.update_date))

/-- `query(StockDaily).filter(symbol).order_by(trade_date desc).first()
.trade_date`: the latest stored trade date for the symbol. -/
def latestDailyTradeDate (t : DailyTable) (symbol : String) : Option DateTime :=
  maxDT ((t.rows.filter (fun r => r.symbol == symbol)).map (fun r => r.trade_date))

/-- The outcome of a fetch call: normalized rows, or a raised exception. -/
inductive Fetched (α : Type) where
  | ok (val : α)
  | err
  deriving DecidableEq, Repr

/-- The logged outcome of one entity step: completed, or caught an exception
(fetch or row-conversion error) and rolled back. -/
inductive StepResult where
  | ok
  | failed
  deriving DecidableEq, Repr

/-- The monotonic filter of `update_stock_history` step 1: a fetched row is
skipped (`continue`) when data already exists, the run is incremental, and
its report date is not strictly newer than the latest stored one (the
`existing_data` query runs only in incremental mode). -/
def finCandidates (full_update : Bool) (table : List StockFinancialMetrics)
    (symbol : String) (fetched : List FinRawRow) : List FinRawRow :=
  let existing := if full_update then none else latestFinReportDate table symbol
  fetched.filter (fun row =>
    !(match existing with
      | some d => !full_update && decide (row.report_date ≤ d)
      | none => false))

/-- Step 1 of `update_stock_history` (historical financial metrics), given the
already-fetched frame: merge every candidate row by (symbol, report_date); a
conversion error aborts the step and the rollback leaves the table unchanged. -/
def updateHistoryFinMetricsE (full_update : Bool) (now : DateTime) (symbol : String)
    (table : List StockFinancialMetrics) (f : Fetched (List FinRawRow)) :
    List StockFinancialMetrics × StepResult :=
  match f with
  | .err => (table, .failed)
  | .ok fetched =>
    match buildAll (buildFinMetric symbol now) (finCandidates full_update table symbol fetched) with
    | some ms => (ms.foldl (mergeByKey finPk) table, .ok)
    | none => (table, .failed)

/-- Step 1 of `update_stock_history` with a successful fetch. -/
def updateHistoryFinMetrics (full_update : Bool) (now : DateTime) (symbol : String)
    (table : List StockFinancialMetrics) (fetched : List FinRawRow) :
    List StockFinancialMetrics :=
  (updateHistoryFinMetricsE full_update now symbol table (.ok fetched)).fst

/-- The monotonic filter of `update_stock_history` step 2: a fetched trade is
skipped when data already exists, the run is incremental, and its change date
is not strictly newer than the latest stored one. -/
def insCandidates (full_update : Bool) (table : List StockInsiderTrades)
    (symbol : String) (fetched : List InsRawRow) : List InsRawRow :=
  let existing := if full_update then none else latestInsChangeDate table symbol
  fetched.filter (fun row =>
    !(match existing with
      | some d => !full_update && decide (row.change_date ≤ d)
      | none => false))

/-- Step 2 of `update_stock_history` (historical insider trades). -/
def updateHistoryInsiderE (full_update : Bool) (now : DateTime) (symbol : String)
    (table : List StockInsiderTrades) (f : Fetched (List InsRawRow)) :
    List StockInsiderTrades × StepResult :=
  match f with
  | .err => (table, .failed)
  | .ok fetched =>
    match buildAll (buildInsTrade symbol now) (insCandidates full_update table symbol fetched) with
    | some ts => (ts.foldl (mergeByKey insPk) table, .ok)
    | none => (table, .failed)

/-- Step 2 of `update_stock_history` with a successful fetch. -/
def updateHistoryInsider (full_update : Bool) (now : DateTime) (symbol : String)
    (table : List StockInsiderTrades) (fetched : List InsRawRow) :
    List StockInsiderTrades :=
  (updateHistoryInsiderE full_update now symbol table (.ok fetched)).fst

/-- The loop body of `update_stock_history` step 3: a news row is dropped when
its date cell is empty or older than the window, skipped by the incremental
filter when not strictly newer than the latest stored windowed news, and
merged by (symbol, title, date) otherwise. -/
def historyNewsStep (full_update : Bool) (now thirty : DateTime) (symbol : String)
    (existing : Option DateTime) (t : List StockNews) (row : NewsRawRow) : List StockNews :=
  match row.date_str with
  | none => t
  | some nd =>
    if DateTime.lt nd thirty then t
    else if (match existing with
             | some e => !full_update && DateTime.le nd e
             | none => false) then t
    else mergeByKey newsPk t
      { symbol := symbol, title := row.title, date := nd, source := "东方财富",
        url := row.url, update_date := now }

/-- Step 3 of `update_stock_history` (news): the whole body, including the
deletion of rows older than the window, runs under `if not df.empty:` — an
empty fetch leaves the table untouched, stale rows included. -/
def updateHistoryNewsE (full_update : Bool) (now thirty : DateTime) (symbol : String)
    (table : List StockNews) (f : Fetched (List NewsRawRow)) :
    List StockNews × StepResult :=
  match f with
  | .err => (table, .failed)
  | .ok fetched =>
    let existing := if full_update then none else latestNewsRecentDate thirty table symbol
    if fetched.isEmpty then (table, .ok)
    else
      let t1 := fetched.foldl (historyNewsStep full_update now thirty symbol existing) table
      (t1.filter (fun n => !(n.symbol == symbol && DateTime.lt n.date thirty)), .ok)

/-- Step 3 of `update_stock_history` with a successful fetch. -/
def updateHistoryNews (full_update : Bool) (now thirty : DateTime) (symbol : String)
    (table : List StockNews) (fetched : List NewsRawRow) : List StockNews :=
  (updateHistoryNewsE full_update now thirty symbol table (.ok fetched)).fst

/-- `existing_valuation is not None` in `update_stock_history` step 4: a
valuation row for the symbol updated within the window. -/
def valHasRecent (thirty : DateTime) (table : List StockValuationInfo) (symbol : String) : Bool :=
  table.any (fun v => v.symbol == symbol && DateTime.le thirty v.update_date)

/-- The guard `if not has_data or full_update:` of `update_stock_history`
step 4 (`has_data` is only queried in incremental mode). -/
def valuationGate (full_update : Bool) (thirty : DateTime)
    (table : List StockValuationInfo) (symbol : String) : Bool :=
  let has_data := !full_update && valHasRecent thirty table symbol
  !has_data || full_update

/-- Step 4 of `update_stock_history` (valuation): fetch and write only when
the gate opens; the deletion of rows older than the window runs only after a
successful write. `.ok none` models an empty provider frame. -/
def updateHistoryValuationE (full_update : Bool) (now thirty : DateTime) (symbol : String)
    (table : List StockValuationInfo) (f : Fetched (Option ValInfoRaw)) :
    List StockValuationInfo × StepResult :=
  if valuationGate full_update thirty table symbol then
    match f with
    | .err => (table, .failed)
    | .ok none => (table, .ok)
    | .ok (some info) =>
      match buildValuationStrict symbol now info with
      | none => (table, .failed)
      | some v =>
        ((mergeByKey valPk table v).filter
          (fun x => !(x.symbol == symbol && DateTime.lt x.update_date thirty)), .ok)
  else (table, .ok)

/-- Step 4 of `update_stock_history` with a successful fetch. -/
def updateHistoryValuation (full_update : Bool) (now thirty : DateTime) (symbol : String)
    (table : List StockValuationInfo) (fetched : Option ValInfoRaw) :
    List StockValuationInfo :=
  (updateHistoryValuationE full_update now thirty symbol table (.ok fetched)).fst

/-- One security's persisted store: the five time-series tables (the
`stock_basic` table is written by a separate method and not touched here). -/
structure Store where
  daily : DailyTable
  fin : List StockFinancialMetrics
  ins : List StockInsiderTrades
  news : List StockNews
  val : List StockValuationInfo
  deriving DecidableEq, Repr

/-- `StockDataLoader.update_stock_history`: the four entity steps in order,
each inside its own try/except whose handler logs and rolls back, so no step
outcome can keep a later step from running; the returned list is the logged
per-step outcome, in step order. -/
def update_stock_history (full_update : Bool) (now : DateTime) (symbol : String) (st : Store)
    (fFin : Fetched (List FinRawRow)) (fIns : Fetched (List InsRawRow))
    (fNews : Fetched (List NewsRawRow)) (fVal : Fetched (Option ValInfoRaw)) :
    Store × List StepResult :=
  let thirty := now.minusDays 30
  let pFin := updateHistoryFinMetricsE full_update now symbol st.fin fFin
  let pIns := updateHistoryInsiderE full_update now symbol st.ins fIns
  let pNews := updateHistoryNewsE full_update now thirty symbol st.news fNews
  let pVal := updateHistoryValuationE full_update now thirty symbol st.val fVal
  ({ st with fin := pFin.fst, ins := pIns.fst, news := pNews.fst, val := pVal.fst },
   [pFin.snd, pIns.snd, pNews.snd, pVal.snd])

/-- The same-day gate at the top of `StockDataLoader.update_daily_data` (and
of the module-level `update_daily_data`): the run proceeds unless the latest
ValuationSnapshot update timestamp for the symbol falls on today's calendar
date — one whole-security check, used for every entity. -/
def update_daily_data_proceeds (val : List StockValuationInfo) (symbol : String)
    (today : Nat) : Bool :=
  match latestValUpdate val symbol with
  | some t => !(t.day == today)
  | none => true

/-- `StockDataLoader.update_daily_price`: merge today's fetched prices,
skipping a row when the latest stored price already has its calendar date;
the merged rows carry no `id`, so every merge inserts. -/
def update_daily_price (symbol : String) (t : DailyTable)
    (f : Fetched (List PriceRawRow)) : DailyTable :=
  match f with
  | .err => t
  | .ok fetched =>
    let latest := latestDailyTradeDate t symbol
    let candidates := fetched.filter (fun row =>
      !(match latest with
        | some d => d.day == row.trade_date.day
        | none => false))
    match buildAll (buildDailyRow symbol) candidates with
    | some ds => ds.foldl DailyTable.insert t
    | none => t

/-- Step 2 of `update_daily_data`: read the first fetched row's report date;
if no stored row carries that (symbol, report_date), build and merge the row
(a conversion error rolls the step back). -/
def dailyFinStep (symbol : String) (now : DateTime) (table : List StockFinancialMetrics)
    (f : Fetched (List FinRawRow)) : List StockFinancialMetrics :=
  match f with
  | .err => table
  | .ok [] => table
  | .ok (row0 :: _) =>
    if table.any (fun m => m.symbol == symbol && m.report_date == row0.report_date) then table
    else
      match buildFinMetric symbol now row0 with
      | some m => mergeByKey finPk table m
      | none => table

/-- Step 3 of `update_daily_data`: merge the fetched trades whose change date
is today (a conversion error rolls the step back). -/
def dailyInsiderStep (symbol : String) (now : DateTime) (table : List StockInsiderTrades)
    (f : Fetched (List InsRawRow)) : List StockInsiderTrades :=
  match f with
  | .err => table
  | .ok fetched =>
    let today_trades := fetched.filter (fun r => r.change_date == now.day)
    match buildAll (buildInsTrade symbol now) today_trades with
    | some ts => ts.foldl (mergeByKey insPk) table
    | none => table

/-- Step 4 of `update_daily_data`: merge the fetched news dated today. -/
def dailyNewsStep (symbol : String) (now : DateTime) (table : List StockNews)
    (f : Fetched (List NewsRawRow)) : List StockNews :=
  match f with
  | .err => table
  | .ok fetched =>
    let today_news := fetched.filter (fun r =>
      match r.date_str with
      | some d => d.day == now.day
      | none => false)
    today_news.foldl (fun t row =>
      match row.date_str with
      | none => t
      | some nd =>
        mergeByKey newsPk t
          { symbol := symbol, title := row.title, date := nd, source := "东方财富",
            url := row.url, update_date := now }) table

/-- Step 5 of `update_daily_data`: build the valuation row (no emptiness
check — an empty frame is all-missing and becomes all zeros) and merge it. -/
def dailyValStep (symbol : String) (now : DateTime) (table : List StockValuationInfo)
    (f : Fetched ValInfoRaw) : List StockValuationInfo :=
  match f with
  | .err => table
  | .ok info =>
    match buildValuationStrict symbol now info with
    | some v => mergeByKey valPk table v
    | none => table

/-- `StockDataLoader.update_daily_data`: the whole-security same-day gate
(an early return), then the five per-entity steps, each in its own
try/except. -/
def update_daily_data (symbol : String) (now : DateTime) (st : Store)
    (fPrice : Fetched (List PriceRawRow)) (fFin : Fetched (List FinRawRow))
    (fIns : Fetched (List InsRawRow)) (fNews : Fetched (List NewsRawRow))
    (fVal : Fetched ValInfoRaw) : Store :=
  if update_daily_data_proceeds st.val symbol now.day then
    { daily := update_daily_price symbol st.daily fPrice,
      fin := dailyFinStep symbol now st.fin fFin,
      ins := dailyInsiderStep symbol now st.ins fIns,
      news := dailyNewsStep symbol now st.news fNews,
      val := dailyValStep symbol now st.val fVal }
  else st

/-- `StockDataLoader.update_stock_price`: fetch the full history and
`session.merge` a fresh `StockDaily` per row; the rows carry no `id`, so each
merge inserts; a conversion error rolls the whole batch back. -/
def update_stock_price (symbol : String) (t : DailyTable)
    (fetched : List PriceRawRow) : DailyTable :=
  match buildAll (buildDailyRow symbol) fetched with
  | some ds => ds.foldl DailyTable.insert t
  | none => t

/-- `StockDataLoader.update_financial_metrics`: build and merge a row per
fetched record inside one try; the first conversion error aborts the loop and
the rollback discards every uncommitted merge of the batch. -/
def update_financial_metrics (symbol : String) (now : DateTime)
    (table : List StockFinancialMetrics) (fetched : List FinRawRow) :
    List StockFinancialMetrics :=
  match buildAll (buildFinMetric symbol now) fetched with
  | some ms => ms.foldl (mergeByKey finPk) table
  | none => table

/-- `StockDataLoader.update_valuation_info`: each field conversion is wrapped
in its own try/except defaulting to 0.0, so once a non-empty frame arrives the
merge always happens. `none` models an empty or None frame (early return). -/
def update_valuation_info (symbol : String) (now : DateTime)
    (table : List StockValuationInfo) (fetched : Option ValInfoRaw) :
    List StockValuationInfo :=
  match fetched with
  | none => table
  | some info => mergeByKey valPk table (buildValuationInfoRow symbol now info)

/-- The exceptions distinguished by the read-only accessors: the
FileNotFoundError raised by the session factory for an absent per-security
database file, and any other exception. -/
inductive DbError where
  | fileNotFound
  | other (msg : String)
  deriving DecidableEq, Repr

/-- `get_db_session` in `data_fetcher.py`: raises FileNotFoundError when the
per-security database file does not exist, otherwise yields a session over
the store. -/
def get_db_session (db_file_exists : Bool) (st : Store) : Except DbError Store :=
  if db_file_exists then .ok st else .error .fileNotFound

/-- The `Price` pydantic model populated by `get_price_response`. -/
structure PriceOut where
  open_p : FVal
  close : FVal
  high : FVal
  low : FVal
  volume : FVal
  time : DateTime
  deriving DecidableEq, Repr

/-- `get_price_response`: all `stock_daily` rows of the symbol, trade date
descending. -/
def get_price_response (db_file_exists : Bool) (st : Store) (symbol : String) :
    Except DbError (List PriceOut) := do
  let session ← get_db_session db_file_exists st
  let rows := (session.daily.rows.filter (fun r => r.symbol == symbol)).mergeSort
    (fun a b => DateTime.le b.trade_date a.trade_date)
  pure (rows.map (fun r =>
    { open_p := r.open_p, close := r.close, high := r.high, low := r.low,
      volume := r.volume, time := r.trade_date }))

/-- The fields of the `FinancialMetrics` pydantic model that
`get_financial_metrics_response` fills from the store (the rest are None). -/
structure FinMetricsOut where
  report_period : Nat
  earnings_per_share : FVal
  return_on_equity : FVal
  net_margin : FVal
  gross_margin : FVal
  market_cap : Option FVal
  price_to_earnings : Option FVal
  price_to_book : Option FVal
  deriving DecidableEq, Repr

/-- `get_financial_metrics_response`: metric rows report date descending,
joined with the latest valuation row when one exists. -/
def get_financial_metrics_response (db_file_exists : Bool) (st : Store) (symbol : String) :
    Except DbError (List FinMetricsOut) := do
  let session ← get_db_session db_file_exists st
  let metrics := (session.fin.filter (fun m => m.symbol == symbol)).mergeSort
    (fun a b => decide (b.report_date ≤ a.report_date))
  let valuation := (session.val.filter (fun v => v.symbol == symbol)).mergeSort
    (fun a b => DateTime.le b.update_date a.update_date) |>.head?
  pure (metrics.map (fun m =>
    { report_period := m.report_date, earnings_per_share := m.eps,
      return_on_equity := m.roe, net_margin := m.net_profit_ratio,
      gross_margin := m.gross_profit_rate,
      market_cap := valuation.map (fun v => v.market_cap),
      price_to_earnings := valuation.map (fun v => v.pe_ratio),
      price_to_book := valuation.map (fun v => v.pb_ratio) }))

/-- The fields of the `InsiderTrade` pydantic model filled from the store. -/
structure InsiderTradeOut where
  name : String
  transaction_date : Nat
  transaction_shares : Int
  transaction_price_per_share : Int
  filing_date : Nat
  deriving DecidableEq, Repr

/-- `get_insider_trade_response`: trades change date descending. -/
def get_insider_trade_response (db_file_exists : Bool) (st : Store) (symbol : String) :
    Except DbError (List InsiderTradeOut) := do
  let session ← get_db_session db_file_exists st
  let rows := (session.ins.filter (fun t => t.symbol == symbol)).mergeSort
    (fun a b => decide (b.change_date ≤ a.change_date))
  pure (rows.map (fun t =>
    { name := t.holder_name, transaction_date := t.change_date,
      transaction_shares := t.shares_changed,
      transaction_price_per_share := t.price, filing_date := t.update_date.day }))

/-- The fields of the `CompanyNews` pydantic model filled from the store. -/
structure CompanyNewsOut where
  title : String
  date : DateTime
  source : String
  url : String
  deriving DecidableEq, Repr

/-- `get_company_news_response`: news rows date descending. -/
def get_company_news_response (db_file_exists : Bool) (st : Store) (symbol : String) :
    Except DbError (List CompanyNewsOut) := do
  let session ← get_db_session db_file_exists st
  let rows := (session.news.filter (fun n => n.symbol == symbol)).mergeSort
    (fun a b => DateTime.le b.date a.date)
  pure (rows.map (fun n =>
    { title := n.title, date := n.date, source := n.source, url := n.url }))

/-- `Cache.get_prices`: FileNotFoundError and every other exception are both
caught and become None. -/
def Cache.get_prices (db_file_exists : Bool) (st : Store) (ticker : String) :
    Option (List PriceOut) :=
  match get_price_response db_file_exists st ticker with
  | .ok ps => some ps
  | .error .fileNotFound => none
  | .error (.other _) => none

/-- `Cache.get_financial_metrics`. -/
def Cache.get_financial_metrics (db_file_exists : Bool) (st : Store) (ticker : String) :
    Option (List FinMetricsOut) :=
  match get_financial_metrics_response db_file_exists st ticker with
  | .ok ms => some ms
  | .error .fileNotFound => none
  | .error (.other _) => none

/-- `Cache.get_insider_trades`. -/
def Cache.get_insider_trades (db_file_exists : Bool) (st : Store) (ticker : String) :
    Option (List InsiderTradeOut) :=
  match get_insider_trade_response db_file_exists st ticker with
  | .ok ts => some ts
  | .error .fileNotFound => none
  | .error (.other _) => none

/-- `Cache.get_company_news`. -/
def Cache.get_company_news (db_file_exists : Bool) (st : Store) (ticker : String) :
    Option (List CompanyNewsOut) :=
  match get_company_news_response db_file_exists st ticker with
  | .ok ns => some ns
  | .error .fileNotFound => none
  | .error (.other _) => none

/-- Modelled from the spec, for comparison with the code (claim C5): the
per-entity incremental freshness check the specification describes — true
unless the entity's own latest stored update timestamp falls on the current
calendar date. -/
def specNeedsRefresh (entityLatestUpdate : Option DateTime) (today : Nat) : Bool :=
  match entityLatestUpdate with
  | some t => !(t.day == today)
  | none => true

/-- The FinancialMetric entity's own latest update timestamp (the quantity
the specification's per-entity freshness check would consult; the code never
queries it). -/
def finLatestUpdate (table : List StockFinancialMetrics) (symbol : String) :
    Option DateTime :=
  maxDT ((table.filter (fun m => m.symbol == symbol)).map (fun m => m.update_date))

/-! Helper lemmas about the store operations. -/

/-- Keys present after a merge: the merged row's key, plus every key already
in the table. -/
theorem mem_key_mergeByKey {α κ : Type} [DecidableEq κ] (pk : α → κ) (t : List α) (r : α)
    (k : κ) :
    (∃ x ∈ mergeByKey pk t r, pk x = k) ↔ (pk r = k ∨ ∃ x ∈ t, pk x = k) := by
  unfold mergeByKey
  by_cases h : t.any (fun x => decide (pk x = pk r)) = true
  · rw [if_pos h]
    simp only [List.any_eq_true, decide_eq_true_eq] at h
    obtain ⟨w, hw, hwpk⟩ := h
    constructor
    · rintro ⟨x, hx, hxk⟩
      rw [List.mem_map] at hx
      obtain ⟨y, hy, hyx⟩ := hx
      by_cases hc : pk y = pk r
      · rw [if_pos hc] at hyx; subst hyx; exact Or.inl hxk
      · rw [if_neg hc] at hyx; subst hyx; exact Or.inr ⟨y, hy, hxk⟩
    · rintro (hk | ⟨x, hx, hxk⟩)
      · exact ⟨r, List.mem_map.mpr ⟨w, hw, by rw [if_pos hwpk]⟩, hk⟩
      · by_cases hc : pk x = pk r
        · exact ⟨r, List.mem_map.mpr ⟨x, hx, by rw [if_pos hc]⟩, hc.symm.trans hxk⟩
        · exact ⟨x, List.mem_map.mpr ⟨x, hx, by rw [if_neg hc]⟩, hxk⟩
  · rw [if_neg h]
    constructor
    · rintro ⟨x, hx, hxk⟩
      rcases List.mem_append.mp hx with h1 | h1
      · exact Or.inr ⟨x, h1, hxk⟩
      · rw [List.mem_singleton] at h1; subst h1; exact Or.inl hxk
    · rintro (hk | ⟨x, hx, hxk⟩)
      · exact ⟨r, List.mem_append.mpr (Or.inr (List.mem_singleton.mpr rfl)), hk⟩
      · exact ⟨x, List.mem_append.mpr (Or.inl hx), hxk⟩

/-- The merged row itself is in the table after a merge. -/
theorem self_mem_mergeByKey {α κ : Type} [DecidableEq κ] (pk : α → κ) (t : List α) (r : α) :
    r ∈ mergeByKey pk t r := by
  unfold mergeByKey
  by_cases h : t.any (fun x => decide (pk x = pk r)) = true
  · rw [if_pos h]
    simp only [List.any_eq_true, decide_eq_true_eq] at h
    obtain ⟨w, hw, hwpk⟩ := h
    exact List.mem_map.mpr ⟨w, hw, by rw [if_pos hwpk]⟩
  · rw [if_neg h]
    exact List.mem_append.mpr (Or.inr (List.mem_singleton.mpr rfl))

/-- Keys present after merging a whole batch. -/
theorem mem_key_foldl_mergeByKey {α κ : Type} [DecidableEq κ] (pk : α → κ) (ms : List α)
    (t : List α) (k : κ) :
    (∃ x ∈ ms.foldl (mergeByKey pk) t, pk x = k) ↔
      ((∃ m ∈ ms, pk m = k) ∨ ∃ x ∈ t, pk x = k) := by
  induction ms generalizing t with
  | nil => simp
  | cons m ms ih =>
    rw [List.foldl_cons, ih, mem_key_mergeByKey]
    simp only [List.mem_cons]
    constructor
    · rintro (⟨x, hx, hxk⟩ | hk | ⟨x, hx, hxk⟩)
      · exact Or.inl ⟨x, Or.inr hx, hxk⟩
      · exact Or.inl ⟨m, Or.inl rfl, hk⟩
      · exact Or.inr ⟨x, hx, hxk⟩
    · rintro (⟨x, hx | hx, hxk⟩ | ⟨x, hx, hxk⟩)
      · subst hx; exact Or.inr (Or.inl hxk)
      · exact Or.inl ⟨x, hx, hxk⟩
      · exact Or.inr (Or.inr ⟨x, hx, hxk⟩)

/-- A successful batch conversion converts every row. -/
theorem buildAll_mem {α β : Type} (f : α → Option β) (l : List α) (ms : List β)
    (h : buildAll f l = some ms) : ∀ r ∈ l, ∃ m ∈ ms, f r = some m := by
  induction l generalizing ms with
  | nil => simp
  | cons a l ih =>
    intro r hr
    unfold buildAll at h
    cases ha : f a with
    | none => rw [ha] at h; exact absurd h (by simp)
    | some m =>
      cases hl : buildAll f l with
      | none => rw [ha, hl] at h; exact absurd h (by simp)
      | some ms2 =>
        rw [ha, hl] at h
        simp only [Option.some.injEq] at h
        subst h
        rcases List.mem_cons.mp hr with h1 | h1
        · subst h1; exact ⟨m, List.mem_cons_self _ _, ha⟩
        · obtain ⟨m2, hm2, hf2⟩ := ih ms2 hl r h1
          exact ⟨m2, List.mem_cons_of_mem _ hm2, hf2⟩

/-- One unconvertible row fails the whole batch conversion. -/
theorem buildAll_fail {α β : Type} (f : α → Option β) (l : List α) (r : α)
    (hr : r ∈ l) (hf : f r = none) : buildAll f l = none := by
  induction l with
  | nil => cases hr
  | cons a l ih =>
    unfold buildAll
    rcases List.mem_cons.mp hr with h1 | h1
    · subst h1
      rw [hf]
    · rw [ih h1]
      cases f a <;> rfl

/-- The key and write-time fields of a successfully built metric row. -/
theorem buildFinMetric_fields {s : String} {n : DateTime} {r : FinRawRow}
    {m : StockFinancialMetrics} (h : buildFinMetric s n r = some m) :
    m.symbol = s ∧ m.report_date = r.report_date ∧ m.update_date = n := by
  unfold buildFinMetric at h
  simp only [Option.bind_eq_some, Option.some.injEq] at h
  obtain ⟨a, -, b, -, c, -, d, -, e, -, f, -, h⟩ := h
  subst h
  exact ⟨rfl, rfl, rfl⟩

/-- The key and write-time fields of a successfully built insider trade row. -/
theorem buildInsTrade_fields {s : String} {n : DateTime} {r : InsRawRow}
    {m : StockInsiderTrades} (h : buildInsTrade s n r = some m) :
    m.symbol = s ∧ m.change_date = r.change_date ∧
      m.holder_name = holderName r.holder_a r.holder_b ∧ m.update_date = n := by
  unfold buildInsTrade at h
  simp only [Option.bind_eq_some, Option.some.injEq] at h
  obtain ⟨a, -, b, -, h⟩ := h
  subst h
  exact ⟨rfl, rfl, rfl, rfl⟩

/-- A conversion failure in the leading field fails the metric row build. -/
theorem buildFinMetric_fail {s : String} {n : DateTime} {r : FinRawRow}
    (h : strictFloat r.roe = none) : buildFinMetric s n r = none := by
  unfold buildFinMetric
  rw [h]
  rfl

/-- The maximum of a timestamp list is one of its elements. -/
theorem maxDT_mem {l : List DateTime} {t : DateTime} (h : maxDT l = some t) : t ∈ l := by
  induction l generalizing t with
  | nil => exact absurd h (by simp [maxDT])
  | cons d ds ih =>
    unfold maxDT at h
    cases hm : maxDT ds with
    | none =>
      rw [hm] at h
      simp only [Option.some.injEq] at h
      subst h
      exact List.mem_cons_self _ _
    | some b =>
      rw [hm] at h
      simp only [Option.some.injEq] at h
      by_cases hc : DateTime.lt d b = true
      · rw [if_pos hc] at h
        subst h
        exact List.mem_cons_of_mem _ (ih hm)
      · rw [if_neg hc] at h
        subst h
        exact List.mem_cons_self _ _

/-- The maximum of a nonempty constant timestamp list. -/
theorem maxDT_all_eq {l : List DateTime} {t : DateTime} (hne : l ≠ [])
    (hall : ∀ d ∈ l, d = t) : maxDT l = some t := by
  induction l with
  | nil => exact absurd rfl hne
  | cons d ds ih =>
    unfold maxDT
    cases hm : maxDT ds with
    | none =>
      show some d = some t
      rw [hall d (List.mem_cons_self _ _)]
    | some b =>
      have hbt : b = t := hall b (List.mem_cons_of_mem _ (maxDT_mem hm))
      have hdt : d = t := hall d (List.mem_cons_self _ _)
      show some (if DateTime.lt d b = true then b else d) = some t
      rw [hbt, hdt]
      by_cases hc : DateTime.lt t t = true
      · rw [if_pos hc]
      · rw [if_neg hc]

/-- Timestamp order: `a ≤ b` excludes `b < a`. -/
theorem DateTime.lt_eq_false_of_le {a b : DateTime} (h : DateTime.le a b = true) :
    DateTime.lt b a = false := by
  unfold DateTime.le at h
  unfold DateTime.lt
  simp only [Bool.or_eq_true, Bool.and_eq_true, decide_eq_true_eq] at h
  simp only [Bool.or_eq_false_iff, Bool.and_eq_false_iff, decide_eq_false_iff_not]
  omega

/-- Going back in time never goes forward. -/
theorem DateTime.minusDays_le (t : DateTime) (k : Nat) :
    DateTime.le (DateTime.minusDays t k) t = true := by
  unfold DateTime.le DateTime.minusDays
  simp only [Bool.or_eq_true, Bool.and_eq_true, decide_eq_true_eq]
  omega

/-- The latest valuation write time is the write time of some stored row. -/
theorem latestValUpdate_mem {table : List StockValuationInfo} {symbol : String}
    {t : DateTime} (h : latestValUpdate table symbol = some t) :
    ∃ v ∈ table, v.symbol = symbol ∧ v.update_date = t := by
  unfold latestValUpdate at h
  have hmem := maxDT_mem h
  simp only [List.mem_map, List.mem_filter] at hmem
  obtain ⟨v, ⟨hv, hs⟩, ht⟩ := hmem
  exact ⟨v, hv, by simpa using hs, ht⟩

/-- Unfolding equation for the financial-metrics step on a successful fetch. -/
theorem updateHistoryFinMetrics_ok (full_update : Bool) (now : DateTime) (symbol : String)
    (table : List StockFinancialMetrics) (fetched : List FinRawRow) :
    updateHistoryFinMetrics full_update now symbol table fetched
      = match buildAll (buildFinMetric symbol now)
            (finCandidates full_update table symbol fetched) with
        | some ms => ms.foldl (mergeByKey finPk) table
        | none => table := by
  unfold updateHistoryFinMetrics updateHistoryFinMetricsE
  show (match buildAll (buildFinMetric symbol now)
      (finCandidates full_update table symbol fetched) with
    | some ms => (ms.foldl (mergeByKey finPk) table, StepResult.ok)
    | none => (table, StepResult.failed)).fst
    = match buildAll (buildFinMetric symbol now)
        (finCandidates full_update table symbol fetched) with
      | some ms => ms.foldl (mergeByKey finPk) table
      | none => table
  cases buildAll (buildFinMetric symbol now)
    (finCandidates full_update table symbol fetched) <;> rfl

/-- Unfolding equation for the insider-trades step on a successful fetch. -/
theorem updateHistoryInsider_ok (full_update : Bool) (now : DateTime) (symbol : String)
    (table : List StockInsiderTrades) (fetched : List InsRawRow) :
    updateHistoryInsider full_update now symbol table fetched
      = match buildAll (buildInsTrade symbol now)
            (insCandidates full_update table symbol fetched) with
        | some ts => ts.foldl (mergeByKey insPk) table
        | none => table := by
  unfold updateHistoryInsider updateHistoryInsiderE
  show (match buildAll (buildInsTrade symbol now)
      (insCandidates full_update table symbol fetched) with
    | some ts => (ts.foldl (mergeByKey insPk) table, StepResult.ok)
    | none => (table, StepResult.failed)).fst
    = match buildAll (buildInsTrade symbol now)
        (insCandidates full_update table symbol fetched) with
      | some ts => ts.foldl (mergeByKey insPk) table
      | none => table
  cases buildAll (buildInsTrade symbol now)
    (insCandidates full_update table symbol fetched) <;> rfl

/-- In full mode the monotonic filter keeps every fetched metric row. -/
theorem finCandidates_full (table : List StockFinancialMetrics) (symbol : String)
    (fetched : List FinRawRow) : finCandidates true table symbol fetched = fetched := by
  simp [finCandidates]

/-- In full mode the monotonic filter keeps every fetched trade row. -/
theorem insCandidates_full (table : List StockInsiderTrades) (symbol : String)
    (fetched : List InsRawRow) : insCandidates true table symbol fetched = fetched := by
  simp [insCandidates]

/-- In incremental mode with stored data, the candidates are exactly the rows
with a strictly newer report date. -/
theorem finCandidates_incremental (tf : List StockFinancialMetrics) (symbol : String)
    (ff : List FinRawRow) (df : Nat) (hf : latestFinReportDate tf symbol = some df) :
    finCandidates false tf symbol ff
      = ff.filter (fun r => decide (df < r.report_date)) := by
  unfold finCandidates
  rw [if_neg (by simp), hf]
  apply List.filter_congr
  intro r hr
  show (!(!false && decide (r.report_date ≤ df))) = decide (df < r.report_date)
  simp only [Bool.not_false, Bool.true_and]
  rw [← decide_not]
  exact decide_eq_decide.mpr Nat.not_le

/-- In incremental mode with stored data, the candidates are exactly the rows
with a strictly newer change date. -/
theorem insCandidates_incremental (ti : List StockInsiderTrades) (symbol : String)
    (fi : List InsRawRow) (di : Nat) (hi : latestInsChangeDate ti symbol = some di) :
    insCandidates false ti symbol fi
      = fi.filter (fun r => decide (di < r.change_date)) := by
  unfold insCandidates
  rw [if_neg (by simp), hi]
  apply List.filter_congr
  intro r hr
  show (!(!false && decide (r.change_date ≤ di))) = decide (di < r.change_date)
  simp only [Bool.not_false, Bool.true_and]
  rw [← decide_not]
  exact decide_eq_decide.mpr Nat.not_le

/-- C2: for the monotonic entities FinancialMetric and InsiderTrade with
stored data, an incremental apply is the same as a full-mode apply restricted
to the fetched rows whose key date is strictly greater than the latest stored
one — rows with an equal or older key are never written, and full mode
processes the whole fetched batch. -/
theorem C2_incremental_monotonic_filter (now : DateTime) (symbol : String)
    (tf : List StockFinancialMetrics) (ti : List StockInsiderTrades)
    (ff : List FinRawRow) (fi : List InsRawRow) (df di : Nat)
    (hf : latestFinReportDate tf symbol = some df)
    (hi : latestInsChangeDate ti symbol = some di) :
    updateHistoryFinMetrics false now symbol tf ff
      = updateHistoryFinMetrics true now symbol tf
          (ff.filter (fun r => decide (df < r.report_date))) ∧
    updateHistoryInsider false now symbol ti fi
      = updateHistoryInsider true now symbol ti
          (fi.filter (fun r => decide (di < r.change_date))) := by
  constructor
  · rw [updateHistoryFinMetrics_ok, updateHistoryFinMetrics_ok,
        finCandidates_incremental tf symbol ff df hf, finCandidates_full]
  · rw [updateHistoryInsider_ok, updateHistoryInsider_ok,
        insCandidates_incremental ti symbol fi di hi, insCandidates_full]

/-- Sample stored metric table for the C2 witness: latest report 2024-03-31
(day 100 in model units). -/
def c2tf : List StockFinancialMetrics :=
  [⟨"601318", 100, .num 1, .num 1, .num 1, .num 1, .num 1, .num 1, ⟨100, 0⟩⟩]

/-- Sample fetched metric rows for the C2 witness: one stale (day 100), one
new (day 200). -/
def c2ff : List FinRawRow :=
  [⟨100, .num 1, .num 1, .num 1, .num 1, .num 1, .num 1⟩,
   ⟨200, .num 2, .num 2, .num 2, .num 2, .num 2, .num 2⟩]

/-- Sample stored insider-trade table for the C2 witness. -/
def c2ti : List StockInsiderTrades :=
  [⟨"601318", "张三", 90, "增持", 100, 10, ⟨100, 0⟩⟩]

/-- Sample fetched insider rows for the C2 witness. -/
def c2fi : List InsRawRow :=
  [⟨some "张三", none, 90, some "增持", .num 100, .num 10⟩,
   ⟨some "李四", none, 150, some "减持", .num 50, .num 12⟩]

/-- Witness for C2 at a concrete store and batch. -/
theorem C2_incremental_monotonic_filter_witness :
    latestFinReportDate c2tf "601318" = some 100 ∧
    latestInsChangeDate c2ti "601318" = some 90 ∧
    (updateHistoryFinMetrics false ⟨210, 0⟩ "601318" c2tf c2ff
      = updateHistoryFinMetrics true ⟨210, 0⟩ "601318" c2tf
          (c2ff.filter (fun r => decide (100 < r.report_date))) ∧
     updateHistoryInsider false ⟨210, 0⟩ "601318" c2ti c2fi
      = updateHistoryInsider true ⟨210, 0⟩ "601318" c2ti
          (c2fi.filter (fun r => decide (90 < r.change_date)))) :=
  ⟨by decide, by decide,
   C2_incremental_monotonic_filter ⟨210, 0⟩ "601318" c2tf c2ti c2ff c2fi 100 90
     (by decide) (by decide)⟩

/-- C4: no step outcome of `update_stock_history` can keep a later step from
running — the run always completes with one logged outcome per entity, a
fetch failure on InsiderTrade is recorded as that step's failure, and the
NewsItem and ValuationSnapshot processing (state included) is identical
whatever the insider-trade step's fetch returned. -/
theorem C4_entity_failure_isolated (full_update : Bool) (now : DateTime) (symbol : String)
    (st : Store) (fFin : Fetched (List FinRawRow)) (fIns : Fetched (List InsRawRow))
    (fNews : Fetched (List NewsRawRow)) (fVal : Fetched (Option ValInfoRaw)) :
    (update_stock_history full_update now symbol st fFin fIns fNews fVal).snd.length = 4 ∧
    (update_stock_history full_update now symbol st fFin .err fNews fVal).snd.get? 1
      = some .failed ∧
    (update_stock_history full_update now symbol st fFin .err fNews fVal).fst.news
      = (update_stock_history full_update now symbol st fFin fIns fNews fVal).fst.news ∧
    (update_stock_history full_update now symbol st fFin .err fNews fVal).fst.val
      = (update_stock_history full_update now symbol st fFin fIns fNews fVal).fst.val :=
  ⟨rfl, rfl, rfl, rfl⟩

/-- C10: for a missing per-security database file the session factory raises
FileNotFoundError, and every read-only accessor catches it and returns None. -/
theorem C10_missing_db_accessors_return_none (st : Store) (ticker : String) :
    get_db_session false st = .error .fileNotFound ∧
    Cache.get_prices false st ticker = none ∧
    Cache.get_financial_metrics false st ticker = none ∧
    Cache.get_insider_trades false st ticker = none ∧
    Cache.get_company_news false st ticker = none :=
  ⟨rfl, rfl, rfl, rfl, rfl⟩

/-- A row of the merged table for the key symbol is the merged row itself. -/
theorem mem_merge_valPk_eq {tv : List StockValuationInfo} {symbol : String}
    {v x : StockValuationInfo} (hv : v.symbol = symbol)
    (hx : x ∈ mergeByKey valPk tv v) (hxs : x.symbol = symbol) : x = v := by
  unfold mergeByKey at hx
  by_cases h : tv.any (fun y => decide (valPk y = valPk v)) = true
  · rw [if_pos h] at hx
    rw [List.mem_map] at hx
    obtain ⟨y, hy, hyx⟩ := hx
    by_cases hc : valPk y = valPk v
    · rw [if_pos hc] at hyx
      exact hyx.symm
    · rw [if_neg hc] at hyx
      subst hyx
      exact absurd (show valPk y = valPk v from by simp [valPk, hxs, hv]) hc
  · rw [if_neg h] at hx
    simp only [List.any_eq_true, decide_eq_true_eq, not_exists, not_and] at h
    rcases List.mem_append.mp hx with h1 | h1
    · exact absurd (show valPk x = valPk v from by simp [valPk, hxs, hv]) (h x h1)
    · simpa using h1

/-- After merging a valuation row for the symbol, the latest valuation write
time is the merged row's. -/
theorem latestValUpdate_merge {tv : List StockValuationInfo} {symbol : String}
    {v : StockValuationInfo} (hv : v.symbol = symbol) :
    latestValUpdate (mergeByKey valPk tv v) symbol = some v.update_date := by
  unfold latestValUpdate
  have hvmem : v ∈ (mergeByKey valPk tv v).filter (fun x => x.symbol == symbol) :=
    List.mem_filter.mpr ⟨self_mem_mergeByKey valPk tv v, by simp [hv]⟩
  apply maxDT_all_eq
  · intro hemp
    rw [List.map_eq_nil_iff] at hemp
    rw [hemp] at hvmem
    cases hvmem
  · intro d hd
    rw [List.mem_map] at hd
    obtain ⟨x, hx, hxd⟩ := hd
    rw [List.mem_filter] at hx
    obtain ⟨hx1, hx2⟩ := hx
    rw [← hxd, mem_merge_valPk_eq hv hx1 (by simpa using hx2)]

/-- Sample fetched daily-price row for C1 (trade date: model day 40). -/
def c1row : PriceRawRow :=
  ⟨⟨40, 0⟩, .num 10, .num 12, .num 9, .num 11, .num 1000, .num 11000⟩

/-- C1 (code bug): merging the very same DailyPrice row twice through
`update_stock_price` leaves TWO stored rows with the key
("601318", day 40) — the overwrite-in-place the claim (and the source's own
`Config.unique_together` declaration) describes does not happen, because the
table's real primary key is the autoincrement `id`. -/
theorem C1_daily_price_merge_duplicates :
    ((update_stock_price "601318" (update_stock_price "601318" ⟨[], 0⟩ [c1row])
        [c1row]).rows.filter
      (fun x => decide (x.symbol = "601318" ∧ x.trade_date = ⟨40, 0⟩))).length = 2 := by
  decide

/-- Sample convertible metric rows and a poisoned one for C7. -/
def c7good1 : FinRawRow := ⟨10, .num 1, .num 1, .num 1, .num 1, .num 1, .num 1⟩

/-- The malformed middle row of the C7 batch (non-numeric roe cell). -/
def c7bad : FinRawRow := ⟨20, .nonNumeric, .num 2, .num 2, .num 2, .num 2, .num 2⟩

/-- The last — perfectly convertible — row of the C7 batch. -/
def c7good2 : FinRawRow := ⟨30, .num 3, .num 3, .num 3, .num 3, .num 3, .num 3⟩

/-- C7 (code bug): one malformed row in a three-row batch makes
`update_financial_metrics` store NOTHING — the two well-formed rows are
discarded with it (the loop aborts at the first conversion error and the
except clause rolls the session back), not skipped-and-continued as the claim
(and the source's own "跳过一条异常财务指标记录" log message) describes. -/
theorem C7_row_error_aborts_batch :
    (buildFinMetric "601318" ⟨100, 0⟩ c7good1).isSome = true ∧
    (buildFinMetric "601318" ⟨100, 0⟩ c7good2).isSome = true ∧
    update_financial_metrics "601318" ⟨100, 0⟩ [] [c7good1, c7bad, c7good2] = [] :=
  ⟨by decide, by decide, by decide⟩

/-- A metric row whose roe cell is absent, for the C8 counterexample. -/
def c8row : FinRawRow := ⟨40, .missing, .num 1, .num 1, .num 1, .num 1, .num 1⟩

/-- C8 counterexample: for a financial-metric row with an absent field the
write does NOT succeed with 0 substituted — the KeyError aborts the batch and
nothing at all is stored. -/
theorem C8_counterexample :
    update_financial_metrics "601318" ⟨100, 0⟩ [] [c8row] = [] := by decide

/-- C8 as amended: the 0-for-unparseable policy holds for valuation rows
written by `update_valuation_info` (each absent or non-numeric field is
stored as 0 and the write succeeds), while for financial-metric rows an
absent or non-numeric field aborts the whole batch and the table is left
unchanged. -/
theorem C8_amended (symbol : String) (now : DateTime) (tv : List StockValuationInfo)
    (info : ValInfoRaw) (tf : List StockFinancialMetrics) (rows : List FinRawRow)
    (r : FinRawRow) (hr : r ∈ rows) (hbad : strictFloat r.roe = none) :
    (∃ v ∈ update_valuation_info symbol now tv (some info),
        v.symbol = symbol ∧ v.update_date = now ∧
        ((info.market_cap = .missing ∨ info.market_cap = .nonNumeric) →
          v.market_cap = .num 0) ∧
        ((info.pe_ratio = .missing ∨ info.pe_ratio = .nonNumeric) →
          v.pe_ratio = .num 0)) ∧
    update_financial_metrics symbol now tf rows = tf := by
  constructor
  · refine ⟨buildValuationInfoRow symbol now info, ?_, rfl, rfl, ?_, ?_⟩
    · show buildValuationInfoRow symbol now info ∈
        mergeByKey valPk tv (buildValuationInfoRow symbol now info)
      exact self_mem_mergeByKey valPk tv _
    · rintro (h | h) <;> simp [buildValuationInfoRow, tryFloatDefault0, h]
    · rintro (h | h) <;> simp [buildValuationInfoRow, tryFloatDefault0, h]
  · unfold update_financial_metrics
    rw [buildAll_fail (buildFinMetric symbol now) rows r hr (buildFinMetric_fail hbad)]

/-- The valuation frame for the C8 witness: absent market cap, non-numeric
trailing P/E. -/
def c8info : ValInfoRaw := ⟨.missing, .num 5, .num 5, .nonNumeric, .num 5⟩

/-- A metric row with a non-numeric roe cell, for the C8 witness. -/
def c8badrow : FinRawRow := ⟨40, .nonNumeric, .num 1, .num 1, .num 1, .num 1, .num 1⟩

/-- Witness for the amended C8 at a concrete frame and batch. -/
theorem C8_amended_witness :
    c8badrow ∈ [c8badrow] ∧ strictFloat c8badrow.roe = none ∧
    ((∃ v ∈ update_valuation_info "601318" ⟨100, 0⟩ [] (some c8info),
        v.symbol = "601318" ∧ v.update_date = ⟨100, 0⟩ ∧
        ((c8info.market_cap = .missing ∨ c8info.market_cap = .nonNumeric) →
          v.market_cap = .num 0) ∧
        ((c8info.pe_ratio = .missing ∨ c8info.pe_ratio = .nonNumeric) →
          v.pe_ratio = .num 0)) ∧
     update_financial_metrics "601318" ⟨100, 0⟩ [] [c8badrow] = []) :=
  ⟨by decide, by decide,
   C8_amended "601318" ⟨100, 0⟩ [] c8info [] [c8badrow] c8badrow (by decide) (by decide)⟩

/-- Stored metrics for the C5 counterexample: last written on day 99. -/
def c5fin : List StockFinancialMetrics :=
  [⟨"601318", 90, .num 1, .num 1, .num 1, .num 1, .num 1, .num 1, ⟨99, 0⟩⟩]

/-- Stored valuation for the C5 counterexample: written today (day 100). -/
def c5val : List StockValuationInfo :=
  [⟨"601318", .num 5, .num 5, .num 5, .num 5, .num 5, ⟨100, 5⟩⟩]

/-- C5 counterexample: the freshness check is not per-entity. For the
FinancialMetric entity (own latest update: day 99, today: day 100) the
claimed check says refresh; the code's single gate — keyed on the
ValuationSnapshot timestamp alone — says skip, and `update_daily_data`
consequently leaves every table unchanged, fresh metric rows included. -/
theorem C5_counterexample :
    specNeedsRefresh (finLatestUpdate c5fin "601318") 100 = true ∧
    update_daily_data_proceeds c5val "601318" 100 = false ∧
    update_daily_data "601318" ⟨100, 6⟩ ⟨⟨[], 0⟩, c5fin, [], [], c5val⟩
        (.ok []) (.ok [⟨200, .num 2, .num 2, .num 2, .num 2, .num 2, .num 2⟩])
        (.ok []) (.ok []) (.ok ⟨.num 5, .num 5, .num 5, .num 5, .num 5⟩)
      = ⟨⟨[], 0⟩, c5fin, [], [], c5val⟩ :=
  ⟨by decide, by decide, by decide⟩

/-- C5 as amended: the same-day check is one whole-security gate keyed on the
ValuationSnapshot's latest update timestamp — before any valuation write on a
given day it reports refresh; after a merge stamps a valuation row for the
symbol with a today timestamp, it reports skip. -/
theorem C5_amended (tv : List StockValuationInfo) (symbol : String) (now : DateTime)
    (v : StockValuationInfo)
    (h : ∀ x ∈ tv, x.symbol = symbol → x.update_date.day ≠ now.day)
    (hv : v.symbol = symbol) (hd : v.update_date.day = now.day) :
    update_daily_data_proceeds tv symbol now.day = true ∧
    update_daily_data_proceeds (mergeByKey valPk tv v) symbol now.day = false := by
  constructor
  · unfold update_daily_data_proceeds
    cases hl : latestValUpdate tv symbol with
    | none => rfl
    | some t =>
      obtain ⟨x, hx, hxs, hxu⟩ := latestValUpdate_mem hl
      have hne : t.day ≠ now.day := hxu ▸ h x hx hxs
      show (!(t.day == now.day)) = true
      simp [hne]
  · unfold update_daily_data_proceeds
    rw [latestValUpdate_merge hv]
    show (!(v.update_date.day == now.day)) = false
    simp [hd]

/-- Stored valuation for the C5 witness: last written yesterday (day 99). -/
def c5wval : List StockValuationInfo :=
  [⟨"601318", .num 5, .num 5, .num 5, .num 5, .num 5, ⟨99, 7⟩⟩]

/-- The valuation row whose merge flips the gate in the C5 witness. -/
def c5wrow : StockValuationInfo := ⟨"601318", .num 6, .num 6, .num 6, .num 6, .num 6, ⟨100, 8⟩⟩

/-- Witness for the amended C5 at a concrete store. -/
theorem C5_amended_witness :
    (∀ x ∈ c5wval, x.symbol = "601318" → x.update_date.day ≠ (100 : Nat)) ∧
    c5wrow.symbol = "601318" ∧ c5wrow.update_date.day = (100 : Nat) ∧
    (update_daily_data_proceeds c5wval "601318" 100 = true ∧
     update_daily_data_proceeds (mergeByKey valPk c5wval c5wrow) "601318" 100 = false) :=
  ⟨by decide, by decide, by decide,
   C5_amended c5wval "601318" ⟨100, 8⟩ c5wrow (by decide) (by decide) (by decide)⟩

/-- Stored metrics for the C6 counterexample: latest report period day 10. -/
def c6fin : List StockFinancialMetrics :=
  [⟨"000001", 10, .num 1, .num 1, .num 1, .num 1, .num 1, .num 1, ⟨50, 0⟩⟩]

/-- Stored valuation for the C6 counterexample: written today (day 100). -/
def c6val : List StockValuationInfo :=
  [⟨"000001", .num 5, .num 5, .num 5, .num 5, .num 5, ⟨100, 1⟩⟩]

/-- The provider's newest report row for C6: period day 20, strictly newer
than everything stored. -/
def c6row : FinRawRow := ⟨20, .num 2, .num 2, .num 2, .num 2, .num 2, .num 2⟩

/-- C6 counterexample: the provider's most recent report period (day 20) is
strictly newer than the latest stored one (day 10), yet `update_daily_data`
writes nothing — the same-day gate (valuation already stamped today) returns
before the new-report check is ever reached. -/
theorem C6_counterexample :
    latestFinReportDate c6fin "000001" = some 10 ∧
    (10 : Nat) < c6row.report_date ∧
    update_daily_data "000001" ⟨100, 9⟩ ⟨⟨[], 0⟩, c6fin, [], [], c6val⟩
        (.ok []) (.ok [c6row]) (.ok []) (.ok [])
        (.ok ⟨.num 5, .num 5, .num 5, .num 5, .num 5⟩)
      = ⟨⟨[], 0⟩, c6fin, [], [], c6val⟩ :=
  ⟨by decide, by decide, by decide⟩

/-- Unfolding equation for `update_daily_data` step 2 on a non-empty fetch. -/
theorem dailyFinStep_cons (symbol : String) (now : DateTime)
    (table : List StockFinancialMetrics) (row0 : FinRawRow) (rest : List FinRawRow) :
    dailyFinStep symbol now table (.ok (row0 :: rest))
      = if table.any (fun m => m.symbol == symbol && m.report_date == row0.report_date)
        then table
        else match buildFinMetric symbol now row0 with
          | some m => mergeByKey finPk table m
          | none => table := rfl

/-- C6 as amended: the new-report check runs only inside a run the same-day
gate lets through — in such a run, a provider report period not yet stored is
written; when the gate fires (valuation already stamped today), nothing is
written that day, however new the report period is. -/
theorem C6_amended (symbol : String) (now : DateTime) (st : Store) (row : FinRawRow)
    (rest : List FinRawRow) (m : StockFinancialMetrics)
    (fPrice : Fetched (List PriceRawRow)) (fIns : Fetched (List InsRawRow))
    (fNews : Fetched (List NewsRawRow)) (fVal : Fetched ValInfoRaw)
    (hp : update_daily_data_proceeds st.val symbol now.day = true)
    (hnew : ∀ x ∈ st.fin, ¬(x.symbol = symbol ∧ x.report_date = row.report_date))
    (hb : buildFinMetric symbol now row = some m) :
    ∃ x ∈ (update_daily_data symbol now st fPrice (.ok (row :: rest)) fIns fNews fVal).fin,
      x.symbol = symbol ∧ x.report_date = row.report_date := by
  unfold update_daily_data
  rw [if_pos hp]
  show ∃ x ∈ dailyFinStep symbol now st.fin (.ok (row :: rest)),
    x.symbol = symbol ∧ x.report_date = row.report_date
  rw [dailyFinStep_cons]
  have hany : (st.fin.any (fun x => x.symbol == symbol && x.report_date == row.report_date))
      = false := by
    rw [List.any_eq_false]
    intro x hx
    have hn := hnew x hx
    simp only [Bool.and_eq_true, beq_iff_eq]
    exact hn
  rw [if_neg (by simp [hany]), hb]
  have hkey : ∃ x ∈ mergeByKey finPk st.fin m, finPk x = (symbol, row.report_date) := by
    rw [mem_key_mergeByKey]
    obtain ⟨h1, h2, -⟩ := buildFinMetric_fields hb
    exact Or.inl (by simp [finPk, h1, h2])
  obtain ⟨x, hx, hk⟩ := hkey
  refine ⟨x, hx, ?_⟩
  simpa [finPk, Prod.ext_iff] using hk

/-- Stored valuation for the C6 witness: last written yesterday. -/
def c6wst : Store :=
  ⟨⟨[], 0⟩, [⟨"000001", 10, .num 1, .num 1, .num 1, .num 1, .num 1, .num 1, ⟨50, 0⟩⟩],
   [], [], [⟨"000001", .num 5, .num 5, .num 5, .num 5, .num 5, ⟨99, 1⟩⟩]⟩

/-- Witness for the amended C6 at a concrete store and fetch. -/
theorem C6_amended_witness :
    update_daily_data_proceeds c6wst.val "000001" (100 : Nat) = true ∧
    (∀ x ∈ c6wst.fin, ¬(x.symbol = "000001" ∧ x.report_date = c6row.report_date)) ∧
    buildFinMetric "000001" ⟨100, 2⟩ c6row
      = some ⟨"000001", 20, .num 2, .num 2, .num 2, .num 2, .num 2, .num 2, ⟨100, 2⟩⟩ ∧
    (∃ x ∈ (update_daily_data "000001" ⟨100, 2⟩ c6wst (.ok []) (.ok [c6row]) (.ok [])
          (.ok []) (.ok ⟨.num 5, .num 5, .num 5, .num 5, .num 5⟩)).fin,
      x.symbol = "000001" ∧ x.report_date = c6row.report_date) :=
  ⟨by decide, by decide, by decide,
   C6_amended "000001" ⟨100, 2⟩ c6wst c6row []
     ⟨"000001", 20, .num 2, .num 2, .num 2, .num 2, .num 2, .num 2, ⟨100, 2⟩⟩
     (.ok []) (.ok []) (.ok []) (.ok ⟨.num 5, .num 5, .num 5, .num 5, .num 5⟩)
     (by decide) (by decide) (by decide)⟩

/-- One news-loop iteration never loses a stored key. -/
theorem historyNewsStep_key_preserved (full_update : Bool) (now thirty : DateTime)
    (symbol : String) (existing : Option DateTime) (t : List StockNews) (r : NewsRawRow)
    (k : String × String × DateTime) (h : ∃ x ∈ t, newsPk x = k) :
    ∃ x ∈ historyNewsStep full_update now thirty symbol existing t r, newsPk x = k := by
  unfold historyNewsStep
  cases r.date_str with
  | none => exact h
  | some nd =>
    show ∃ x ∈ (if DateTime.lt nd thirty = true then t
        else if (match existing with
                 | some e => !full_update && DateTime.le nd e
                 | none => false) = true then t
        else mergeByKey newsPk t
          { symbol := symbol, title := r.title, date := nd, source := "东方财富",
            url := r.url, update_date := now }), newsPk x = k
    by_cases h1 : DateTime.lt nd thirty = true
    · rw [if_pos h1]; exact h
    · rw [if_neg h1]
      by_cases h2 : (match existing with
          | some e => !full_update && DateTime.le nd e
          | none => false) = true
      · rw [if_pos h2]; exact h
      · rw [if_neg h2]
        rw [mem_key_mergeByKey]
        exact Or.inr h

/-- The whole news loop never loses a stored key. -/
theorem newsFold_key_preserved (full_update : Bool) (now thirty : DateTime) (symbol : String)
    (existing : Option DateTime) (rows : List NewsRawRow) (t : List StockNews)
    (k : String × String × DateTime) (h : ∃ x ∈ t, newsPk x = k) :
    ∃ x ∈ rows.foldl (historyNewsStep full_update now thirty symbol existing) t,
      newsPk x = k := by
  induction rows generalizing t with
  | nil => simpa using h
  | cons r rows ih =>
    rw [List.foldl_cons]
    exact ih _ (historyNewsStep_key_preserved full_update now thirty symbol existing t r k h)

/-- Unfolding equation for the news step on a successful non-empty fetch. -/
theorem updateHistoryNews_cons (full_update : Bool) (now thirty : DateTime) (symbol : String)
    (table : List StockNews) (r0 : NewsRawRow) (rs : List NewsRawRow) :
    updateHistoryNews full_update now thirty symbol table (r0 :: rs)
      = ((r0 :: rs).foldl
          (historyNewsStep full_update now thirty symbol
            (if full_update then none else latestNewsRecentDate thirty table symbol)) table).filter
          (fun n => !(n.symbol == symbol && DateTime.lt n.date thirty)) := rfl

/-- Unfolding equation for the valuation step with an open gate and a
convertible frame. -/
theorem updateHistoryValuation_some (full_update : Bool) (now thirty : DateTime)
    (symbol : String) (table : List StockValuationInfo) (info : ValInfoRaw)
    (v : StockValuationInfo)
    (hg : valuationGate full_update thirty table symbol = true)
    (hb : buildValuationStrict symbol now info = some v) :
    updateHistoryValuation full_update now thirty symbol table (some info)
      = (mergeByKey valPk table v).filter
          (fun x => !(x.symbol == symbol && DateTime.lt x.update_date thirty)) := by
  unfold updateHistoryValuation updateHistoryValuationE
  rw [if_pos hg]
  show (match buildValuationStrict symbol now info with
    | none => (table, StepResult.failed)
    | some v =>
      ((mergeByKey valPk table v).filter
        (fun x => !(x.symbol == symbol && DateTime.lt x.update_date thirty)),
       StepResult.ok)).fst = _
  rw [hb]

/-- Stored news for the C3 counterexample: one row dated day 69 — 31 days
before the run time, day 100. -/
def c3news : List StockNews :=
  [⟨"601318", "旧闻", ⟨69, 0⟩, "东方财富", "u", ⟨69, 0⟩⟩]

/-- C3 counterexample: an incremental `update_stock_history` run whose news
fetch comes back empty prunes nothing — the 31-day-old NewsItem survives the
run, although the claim promises no over-age row after every incremental
run. -/
theorem C3_counterexample :
    DateTime.lt (⟨69, 0⟩ : DateTime) (DateTime.minusDays ⟨100, 0⟩ 30) = true ∧
    (update_stock_history false ⟨100, 0⟩ "601318" ⟨⟨[], 0⟩, [], [], c3news, []⟩
        (.ok []) (.ok []) (.ok []) (.ok none)).fst.news = c3news :=
  ⟨by decide, by decide⟩

/-- C3 as amended: pruning happens only on runs whose fetch returns data.
After an incremental news step with a non-empty fetch, no row for the symbol
older than the 30-day window remains, and every stored key dated inside the
window is still present; after an incremental valuation step whose gate opens
and whose frame converts, no valuation row for the symbol is older than the
window. An empty fetch (see the counterexample) prunes nothing. -/
theorem C3_amended (now : DateTime) (symbol : String) (tn : List StockNews)
    (r0 : NewsRawRow) (rs : List NewsRawRow) (tv : List StockValuationInfo)
    (info : ValInfoRaw) (v : StockValuationInfo)
    (hgate : valuationGate false (now.minusDays 30) tv symbol = true)
    (hbv : buildValuationStrict symbol now info = some v) :
    (∀ n ∈ updateHistoryNews false now (now.minusDays 30) symbol tn (r0 :: rs),
        n.symbol = symbol → DateTime.lt n.date (now.minusDays 30) = false) ∧
    (∀ n ∈ tn, n.symbol = symbol → DateTime.le (now.minusDays 30) n.date = true →
        ∃ x ∈ updateHistoryNews false now (now.minusDays 30) symbol tn (r0 :: rs),
          newsPk x = newsPk n) ∧
    (∀ x ∈ updateHistoryValuation false now (now.minusDays 30) symbol tv (some info),
        x.symbol = symbol → DateTime.lt x.update_date (now.minusDays 30) = false) := by
  refine ⟨?_, ?_, ?_⟩
  · intro n hn hs
    rw [updateHistoryNews_cons, List.mem_filter] at hn
    simpa [hs] using hn.2
  · intro n hn hs hd
    rw [updateHistoryNews_cons]
    obtain ⟨x, hx, hk⟩ :=
      newsFold_key_preserved false now (now.minusDays 30) symbol
        (if false then none else latestNewsRecentDate (now.minusDays 30) tn symbol)
        (r0 :: rs) tn (newsPk n) ⟨n, hn, rfl⟩
    refine ⟨x, List.mem_filter.mpr ⟨hx, ?_⟩, hk⟩
    have hfields : x.symbol = n.symbol ∧ x.title = n.title ∧ x.date = n.date := by
      simpa [newsPk, Prod.ext_iff] using hk
    have hlt : DateTime.lt x.date (now.minusDays 30) = false := by
      rw [hfields.2.2]
      exact DateTime.lt_eq_false_of_le hd
    simp [hlt]
  · intro x hx hxs
    rw [updateHistoryValuation_some false now (now.minusDays 30) symbol tv info v hgate hbv,
        List.mem_filter] at hx
    simpa [hxs] using hx.2

/-- Stored news for the C3 witness: one in-window row (day 80). -/
def c3wtn : List StockNews :=
  [⟨"601318", "近闻", ⟨80, 0⟩, "东方财富", "u2", ⟨80, 0⟩⟩]

/-- The fetched news row for the C3 witness. -/
def c3wrow : NewsRawRow := ⟨some ⟨95, 0⟩, "新闻一", "u3"⟩

/-- The valuation frame for the C3 witness. -/
def c3winfo : ValInfoRaw := ⟨.num 7, .num 7, .num 7, .num 7, .num 7⟩

/-- The valuation row the C3 witness frame builds to. -/
def c3wv : StockValuationInfo := ⟨"601318", .num 7, .num 7, .num 7, .num 7, .num 7, ⟨100, 0⟩⟩

/-- Witness for the amended C3 at a concrete store, fetch and frame. -/
theorem C3_amended_witness :
    valuationGate false (DateTime.minusDays ⟨100, 0⟩ 30) [] "601318" = true ∧
    buildValuationStrict "601318" ⟨100, 0⟩ c3winfo = some c3wv ∧
    ((∀ n ∈ updateHistoryNews false ⟨100, 0⟩ (DateTime.minusDays ⟨100, 0⟩ 30) "601318"
          c3wtn [c3wrow],
        n.symbol = "601318" → DateTime.lt n.date (DateTime.minusDays ⟨100, 0⟩ 30) = false) ∧
     (∀ n ∈ c3wtn, n.symbol = "601318" →
        DateTime.le (DateTime.minusDays ⟨100, 0⟩ 30) n.date = true →
        ∃ x ∈ updateHistoryNews false ⟨100, 0⟩ (DateTime.minusDays ⟨100, 0⟩ 30) "601318"
            c3wtn [c3wrow], newsPk x = newsPk n) ∧
     (∀ x ∈ updateHistoryValuation false ⟨100, 0⟩ (DateTime.minusDays ⟨100, 0⟩ 30) "601318"
          [] (some c3winfo),
        x.symbol = "601318" →
          DateTime.lt x.update_date (DateTime.minusDays ⟨100, 0⟩ 30) = false)) :=
  ⟨by decide, by decide,
   C3_amended ⟨100, 0⟩ "601318" c3wtn c3wrow [] [] c3winfo c3wv (by decide) (by decide)⟩

/-- C9: in full mode nothing stored suppresses the run — the monotonic filter
keeps no row back (every convertible fetched row ends up stored under its
key, whatever the stored latest keys say) and the valuation gate opens
against any stored state. -/
theorem C9_full_mode_bypass (now thirty : DateTime) (symbol : String)
    (tf : List StockFinancialMetrics) (ff : List FinRawRow)
    (msf : List StockFinancialMetrics) (ti : List StockInsiderTrades)
    (fi : List InsRawRow) (msi : List StockInsiderTrades)
    (tv : List StockValuationInfo)
    (hbf : buildAll (buildFinMetric symbol now) ff = some msf)
    (hbi : buildAll (buildInsTrade symbol now) fi = some msi) :
    (∀ r ∈ ff, ∃ m ∈ updateHistoryFinMetrics true now symbol tf ff,
        m.symbol = symbol ∧ m.report_date = r.report_date) ∧
    (∀ r ∈ fi, ∃ m ∈ updateHistoryInsider true now symbol ti fi,
        m.symbol = symbol ∧ m.change_date = r.change_date) ∧
    valuationGate true thirty tv symbol = true := by
  refine ⟨?_, ?_, by simp [valuationGate]⟩
  · intro r hr
    rw [updateHistoryFinMetrics_ok, finCandidates_full, hbf]
    obtain ⟨m, hm, hfm⟩ := buildAll_mem _ _ _ hbf r hr
    obtain ⟨h1, h2, -⟩ := buildFinMetric_fields hfm
    obtain ⟨x, hx, hk⟩ : ∃ x ∈ msf.foldl (mergeByKey finPk) tf,
        finPk x = (symbol, r.report_date) := by
      rw [mem_key_foldl_mergeByKey]
      exact Or.inl ⟨m, hm, by simp [finPk, h1, h2]⟩
    exact ⟨x, hx, by simpa [finPk, Prod.ext_iff] using hk⟩
  · intro r hr
    rw [updateHistoryInsider_ok, insCandidates_full, hbi]
    obtain ⟨m, hm, hfm⟩ := buildAll_mem _ _ _ hbi r hr
    obtain ⟨h1, h2, h3, -⟩ := buildInsTrade_fields hfm
    obtain ⟨x, hx, hk⟩ : ∃ x ∈ msi.foldl (mergeByKey insPk) ti,
        insPk x = (symbol, holderName r.holder_a r.holder_b, r.change_date) := by
      rw [mem_key_foldl_mergeByKey]
      exact Or.inl ⟨m, hm, by simp [insPk, h1, h2, h3]⟩
    have hks : x.symbol = symbol ∧ x.holder_name = holderName r.holder_a r.holder_b ∧
        x.change_date = r.change_date := by
      simpa [insPk, Prod.ext_iff] using hk
    exact ⟨x, hx, hks.1, hks.2.2⟩

/-- Stored metrics for the C9 witness: latest report day 50 — newer than the
fetched row's day 7, yet full mode writes the fetched row anyway. -/
def c9tf : List StockFinancialMetrics :=
  [⟨"601318", 50, .num 9, .num 9, .num 9, .num 9, .num 9, .num 9, ⟨60, 0⟩⟩]

/-- The fetched metric row for the C9 witness. -/
def c9ff : List FinRawRow := [⟨7, .num 1, .num 1, .num 1, .num 1, .num 1, .num 1⟩]

/-- The converted metric batch of the C9 witness. -/
def c9msf : List StockFinancialMetrics :=
  [⟨"601318", 7, .num 1, .num 1, .num 1, .num 1, .num 1, .num 1, ⟨100, 3⟩⟩]

/-- Stored trades for the C9 witness: latest change day 90. -/
def c9ti : List StockInsiderTrades :=
  [⟨"601318", "王五", 90, "增持", 10, 3, ⟨95, 0⟩⟩]

/-- The fetched insider row for the C9 witness (change day 8, older than the
stored latest). -/
def c9fi : List InsRawRow := [⟨some "王五", none, 8, some "增持", .num 10, .num 3⟩]

/-- The converted insider batch of the C9 witness. -/
def c9msi : List StockInsiderTrades := [⟨"601318", "王五", 8, "增持", 10, 3, ⟨100, 3⟩⟩]

/-- Stored valuation for the C9 witness (recent, so the incremental gate
would be closed — the full-mode gate still opens). -/
def c9tv : List StockValuationInfo :=
  [⟨"601318", .num 5, .num 5, .num 5, .num 5, .num 5, ⟨99, 0⟩⟩]

/-- Witness for C9 at a concrete store and batch. -/
theorem C9_full_mode_bypass_witness :
    buildAll (buildFinMetric "601318" ⟨100, 3⟩) c9ff = some c9msf ∧
    buildAll (buildInsTrade "601318" ⟨100, 3⟩) c9fi = some c9msi ∧
    ((∀ r ∈ c9ff, ∃ m ∈ updateHistoryFinMetrics true ⟨100, 3⟩ "601318" c9tf c9ff,
        m.symbol = "601318" ∧ m.report_date = r.report_date) ∧
     (∀ r ∈ c9fi, ∃ m ∈ updateHistoryInsider true ⟨100, 3⟩ "601318" c9ti c9fi,
        m.symbol = "601318" ∧ m.change_date = r.change_date) ∧
     valuationGate true ⟨70, 3⟩ c9tv "601318" = true) :=
  ⟨by decide, by decide,
   C9_full_mode_bypass ⟨100, 3⟩ ⟨70, 3⟩ "601318" c9tf c9ff c9msf c9ti c9fi c9msi c9tv
     (by decide) (by decide)⟩
